import Mathlib

/-
  Shallow embedding of src/src/settings.rs from schets/crossbeam-epoch:
  the scoped, precedence-aware GC settings subsystem.

  The Rust interior-mutability cell (Cell<Setting<Collect>>) is embedded by
  explicit state passing: the live cell content is a value of type GCSettings
  threaded through the mutation operations, each of which returns the new
  cell content.
-/

namespace Crossbeam

/-- Whether collection is allowed, from `pub enum Collect`. -/
inductive Collect where
  | NoCollect
  | Collect
deriving DecidableEq, Repr

/-- The `Stronger` trait: `fn stronger_than(&self, &Self) -> bool`. -/
class Stronger (T : Type) where
  stronger_than : T → T → Bool

/-- The strength of a setting, from `pub enum Strength<T>`. -/
inductive Strength (T : Type) where
  | Lenient
  | AsStrongAs (t : T)
  | Strict
deriving DecidableEq, Repr

/-- `impl Stronger for Collect`: NoCollect is stronger than anything,
Collect is stronger than nothing. -/
def Collect.stronger_than : Crossbeam.Collect → Crossbeam.Collect → Bool
  | Collect.Collect, _ => false
  | Collect.NoCollect, _ => true

instance : Stronger Collect :=
  ⟨Collect.stronger_than⟩

/-- `impl<T: Stronger + ...> Stronger for Strength<T>`. -/
def Strength.stronger_than {T : Type} [Stronger T] : Strength T → Strength T → Bool
  | Strength.Lenient, _ => false
  | Strength.AsStrongAs val, other =>
      match other with
      | Strength.Lenient => true
      | Strength.AsStrongAs test => Stronger.stronger_than val test
      | Strength.Strict => false
  | Strength.Strict, _ => true

instance {T : Type} [Stronger T] : Stronger (Strength T) :=
  ⟨Strength.stronger_than⟩

/-- `fn strongest<T: Stronger>(old: T, new: T) -> T`. -/
def strongest {T : Type} [Stronger T] (old new : T) : T :=
  if Stronger.stronger_than old new then old else new

/-- `pub struct Setting<T>`, pairing a value with its strength. -/
structure Setting (T : Type) where
  val : T
  strength : Strength T
deriving DecidableEq, Repr

/-- `pub struct GCSettings`: the shared cell holding one `Setting<Collect>`.
The `Cell` is collapsed to its content in this sequential embedding. -/
structure GCSettings where
  collect : Setting Collect
deriving DecidableEq, Repr

/-- `GCSettings::new()`: collection enabled by default, freely changeable. -/
def GCSettings.new : GCSettings :=
  { collect := { val := Collect.Collect, strength := Strength.Lenient } }

/-- `pub struct ScopedGCSettings`: `old` is the owned clone of the settings
taken at scope entry. The `cur` field of the Rust struct is a reference to
the live cell; here the live cell content is passed explicitly to each
operation instead. -/
structure ScopedGCSettings where
  old : GCSettings
deriving DecidableEq, Repr

/-- `ScopedGCSettings::new(old: &GCSettings)`: clones the live settings
into the snapshot. -/
def ScopedGCSettings.new (cur : GCSettings) : ScopedGCSettings :=
  { old := cur }

/-- `with_collect_strength`, expanded from the four-argument arm of the
`generate_setting_fncs` macro: reads `self.old.collect.get()`, branches on
that strength, and stores the result into `self.cur.collect`.
`cur` is the live cell content before the call; the result is the live cell
content after the call. -/
def ScopedGCSettings.with_collect_strength (s : ScopedGCSettings) (va : Collect)
    (st : Strength Collect) (cur : GCSettings) : GCSettings :=
  let setting := s.old.collect
  let setting :=
    match setting.strength with
    | Strength.Lenient => { setting with val := va, strength := st }
    | Strength.AsStrongAs test =>
        { setting with val := strongest va test,
                       strength := strongest setting.strength st }
    | Strength.Strict => setting
  { cur with collect := setting }

/-- `with_collect`, expanded from the three-argument arm of the
`generate_setting_fncs` macro: same shape, but the strength field is never
updated. -/
def ScopedGCSettings.with_collect (s : ScopedGCSettings) (va : Collect)
    (cur : GCSettings) : GCSettings :=
  let setting := s.old.collect
  let setting :=
    match setting.strength with
    | Strength.Lenient => { setting with val := va }
    | Strength.AsStrongAs test => { setting with val := strongest va test }
    | Strength.Strict => setting
  { cur with collect := setting }

/-- A single mutation request against a scope handle: either `with_collect`
or `with_collect_strength`. -/
inductive Request where
  | value (va : Collect)
  | valueStrength (va : Collect) (st : Strength Collect)
deriving DecidableEq, Repr

/-- Apply one request from scope `s` to the live cell content `cur`. -/
def applyRequest (s : ScopedGCSettings) (cur : GCSettings) : Request → GCSettings
  | Request.value va => s.with_collect va cur
  | Request.valueStrength va st => s.with_collect_strength va st cur

/-- Apply a sequence of requests from scope `s`, threading the live cell. -/
def applyRequests (s : ScopedGCSettings) (cur : GCSettings)
    (rs : List Request) : GCSettings :=
  rs.foldl (applyRequest s) cur

/-- Apply a sequence of requests, each tagged with the scope handle that
issues it, threading the live cell. This models interleaved mutation
requests coming from several scopes over the same cell. -/
def applyScopedRequests (cur : GCSettings)
    (l : List (ScopedGCSettings × Request)) : GCSettings :=
  l.foldl (fun cell p => applyRequest p.1 cell p.2) cur

/-- Spec-variant of `with_collect` whose first step follows the spec words
of claim C2: it reads the current setting from the live cell `cur` instead
of from the snapshot `s.old`. It exists only to be compared with
`ScopedGCSettings.with_collect`, which is the code. -/
def with_collect_fromLive (s : ScopedGCSettings) (va : Collect)
    (cur : GCSettings) : GCSettings :=
  let setting := cur.collect
  let setting :=
    match setting.strength with
    | Strength.Lenient => { setting with val := va }
    | Strength.AsStrongAs test => { setting with val := strongest va test }
    | Strength.Strict => setting
  { cur with collect := setting }

/-- Spec-variant of `with_collect_strength` reading from the live cell,
analogous to `with_collect_fromLive`. -/
def with_collect_strength_fromLive (s : ScopedGCSettings) (va : Collect)
    (st : Strength Collect) (cur : GCSettings) : GCSettings :=
  let setting := cur.collect
  let setting :=
    match setting.strength with
    | Strength.Lenient => { setting with val := va, strength := st }
    | Strength.AsStrongAs test =>
        { setting with val := strongest va test,
                       strength := strongest setting.strength st }
    | Strength.Strict => setting
  { cur with collect := setting }

/-- Modelled from the spec: the scope-exit restoration step is absent from
src (the source shows no Drop impl or other teardown for ScopedGCSettings);
per the spec, on the active-to-ended transition the live cell is restored
to the snapshot captured at scope entry. -/
def ScopedGCSettings.dropRestore (s : ScopedGCSettings)
    (cur : GCSettings) : GCSettings :=
  s.old

/- Helper lemmas shared by the claim theorems. -/

lemma strongerThan_asStrongAs {T : Type} [Stronger T] (t1 t2 : T) :
    Stronger.stronger_than (Strength.AsStrongAs t1) (Strength.AsStrongAs t2)
      = Stronger.stronger_than t1 t2 := rfl

lemma with_collect_ignores_cur (s : ScopedGCSettings) (va : Collect)
    (cur cur' : GCSettings) :
    s.with_collect va cur = s.with_collect va cur' := rfl

lemma with_collect_strength_ignores_cur (s : ScopedGCSettings) (va : Collect)
    (st : Strength Collect) (cur cur' : GCSettings) :
    s.with_collect_strength va st cur = s.with_collect_strength va st cur' := rfl

lemma applyRequest_ignores_cur (s : ScopedGCSettings) (cur cur' : GCSettings)
    (r : Request) :
    applyRequest s cur r = applyRequest s cur' r := by
  cases r <;> rfl

lemma with_collect_of_strict (s : ScopedGCSettings) (va : Collect)
    (cur : GCSettings) (h : s.old.collect.strength = Strength.Strict) :
    s.with_collect va cur = ⟨s.old.collect⟩ := by
  simp only [ScopedGCSettings.with_collect, h]

lemma with_collect_strength_of_strict (s : ScopedGCSettings) (va : Collect)
    (st : Strength Collect) (cur : GCSettings)
    (h : s.old.collect.strength = Strength.Strict) :
    s.with_collect_strength va st cur = ⟨s.old.collect⟩ := by
  simp only [ScopedGCSettings.with_collect_strength, h]

lemma applyRequest_of_strict (s : ScopedGCSettings) (cur : GCSettings)
    (r : Request) (h : s.old.collect.strength = Strength.Strict) :
    applyRequest s cur r = ⟨s.old.collect⟩ := by
  cases r with
  | value va => exact with_collect_of_strict s va cur h
  | valueStrength va st => exact with_collect_strength_of_strict s va st cur h

lemma applyScopedRequests_fixed (c : GCSettings)
    (hstr : c.collect.strength = Strength.Strict) :
    ∀ l : List (ScopedGCSettings × Request),
      (∀ p ∈ l, p.1 = ScopedGCSettings.new c) → applyScopedRequests c l = c := by
  intro l
  induction l with
  | nil => intro _; rfl
  | cons p l ih =>
      intro hscopes
      have hp : p.1 = ScopedGCSettings.new c := hscopes p (List.mem_cons_self p l)
      have hstep : applyRequest p.1 c p.2 = c := by
        rw [hp]
        exact applyRequest_of_strict (ScopedGCSettings.new c) c p.2 hstr
      show applyScopedRequests (applyRequest p.1 c p.2) l = c
      rw [hstep]
      exact ih (fun q hq => hscopes q (List.mem_cons_of_mem p hq))

/- Claim theorems. -/

/-- Claim C1, counterexample: the claim fails as stated. Starting from the
default cell, a scope installs the setting (NoCollect, Strict); the cell
then holds a Strict-strength setting. A further with_collect call through
the very same scope (whose snapshot predates the Strict setting) changes
the Collect value of the cell back to Collect, because the merge reads the
scope snapshot, not the cell. -/
theorem C1_strict_value_changes_counterexample :
    ((ScopedGCSettings.new GCSettings.new).with_collect_strength Collect.NoCollect
        Strength.Strict GCSettings.new).collect.strength = Strength.Strict
    ∧ ((ScopedGCSettings.new GCSettings.new).with_collect Collect.Collect
          ((ScopedGCSettings.new GCSettings.new).with_collect_strength Collect.NoCollect
            Strength.Strict GCSettings.new)).collect.val
        ≠ ((ScopedGCSettings.new GCSettings.new).with_collect_strength Collect.NoCollect
            Strength.Strict GCSettings.new).collect.val := by decide

/-- Claim C1, amended: once the cell holds a setting whose strength is
Strict, mutation requests issued through scopes created while that setting
is in the cell (scopes whose snapshot is that setting) never change the
cell, hence never change its Collect value; only a scope whose snapshot
predates the Strict setting can still change it. -/
theorem C1_strict_value_fixed_for_scopes_opened_after (c : GCSettings)
    (l : List (ScopedGCSettings × Request))
    (hstr : c.collect.strength = Strength.Strict)
    (hscopes : ∀ p ∈ l, p.1 = ScopedGCSettings.new c) :
    applyScopedRequests c l = c :=
  applyScopedRequests_fixed c hstr l hscopes

/-- Witness for the amended C1 at a concrete Strict cell and a concrete
request list from a scope opened on that cell. -/
theorem C1_strict_value_fixed_witness :
    applyScopedRequests ⟨⟨Collect.NoCollect, Strength.Strict⟩⟩
        [(ScopedGCSettings.new ⟨⟨Collect.NoCollect, Strength.Strict⟩⟩,
          Request.value Collect.Collect),
         (ScopedGCSettings.new ⟨⟨Collect.NoCollect, Strength.Strict⟩⟩,
          Request.valueStrength Collect.Collect Strength.Lenient)]
      = ⟨⟨Collect.NoCollect, Strength.Strict⟩⟩ :=
  C1_strict_value_fixed_for_scopes_opened_after ⟨⟨Collect.NoCollect, Strength.Strict⟩⟩
    _ rfl (by decide)

/-- Claim C2, counterexample: the mutation operations do not read the live
cell. Here the scope snapshot is the default (Collect, Lenient) but the
live cell holds (NoCollect, Strict), a state reachable by an earlier
with_collect_strength call through the same scope (first conjunct). The
code result differs from the result of the spec-worded variant that reads
the live cell. -/
theorem C2_reads_live_cell_counterexample :
    (ScopedGCSettings.new GCSettings.new).with_collect_strength Collect.NoCollect
        Strength.Strict GCSettings.new = ⟨⟨Collect.NoCollect, Strength.Strict⟩⟩
    ∧ (ScopedGCSettings.new GCSettings.new).with_collect Collect.Collect
          ⟨⟨Collect.NoCollect, Strength.Strict⟩⟩
        ≠ with_collect_fromLive (ScopedGCSettings.new GCSettings.new) Collect.Collect
          ⟨⟨Collect.NoCollect, Strength.Strict⟩⟩ := by decide

/-- Claim C2, amended: each mutation operation computes the merge from the
scope-entry snapshot (self.old) and ignores the current content of the
live cell; it behaves exactly as the spec algorithm would if the live cell
still held the snapshot, and writes the result into the live cell. -/
theorem C2_merge_computed_from_snapshot (s : ScopedGCSettings) (va : Collect)
    (st : Strength Collect) (cur cur' : GCSettings) :
    s.with_collect va cur = s.with_collect va cur'
    ∧ s.with_collect_strength va st cur = s.with_collect_strength va st cur'
    ∧ s.with_collect va cur = with_collect_fromLive s va s.old
    ∧ s.with_collect_strength va st cur = with_collect_strength_fromLive s va st s.old :=
  ⟨rfl, rfl, rfl, rfl⟩

/-- Claim C3, counterexample: a request processed while the recorded
strength is Strict is not a no-op on the live cell. Reachable trace from
the default cell: scope A installs (NoCollect, Strict); scope B opens and
snapshots (NoCollect, Strict); scope A (Lenient snapshot) then installs
(Collect, Strict). Now both the cell strength and the strength B branches
on are Strict, yet a with_collect call through B rewrites the cell from
(Collect, Strict) to (NoCollect, Strict): the pre-call state does not
equal the post-call state. -/
theorem C3_strict_not_noop_counterexample :
    (ScopedGCSettings.new GCSettings.new).with_collect_strength Collect.NoCollect
        Strength.Strict GCSettings.new = ⟨⟨Collect.NoCollect, Strength.Strict⟩⟩
    ∧ (ScopedGCSettings.new GCSettings.new).with_collect_strength Collect.Collect
        Strength.Strict ⟨⟨Collect.NoCollect, Strength.Strict⟩⟩
        = ⟨⟨Collect.Collect, Strength.Strict⟩⟩
    ∧ (⟨⟨Collect.Collect, Strength.Strict⟩⟩ : GCSettings).collect.strength
        = Strength.Strict
    ∧ (ScopedGCSettings.new ⟨⟨Collect.NoCollect, Strength.Strict⟩⟩).old.collect.strength
        = Strength.Strict
    ∧ (ScopedGCSettings.new ⟨⟨Collect.NoCollect, Strength.Strict⟩⟩).with_collect
          Collect.Collect ⟨⟨Collect.Collect, Strength.Strict⟩⟩
        ≠ ⟨⟨Collect.Collect, Strength.Strict⟩⟩ := by decide

/-- Claim C3, amended: a request processed while the scope snapshot
strength is Strict leaves the live cell unchanged provided the live cell
still equals the snapshot; in general the operation stores the snapshot
into the cell, which is a silent no-op exactly in that case. -/
theorem C3_strict_noop_when_cell_matches_snapshot (s : ScopedGCSettings)
    (r : Request) (cur : GCSettings)
    (h1 : s.old.collect.strength = Strength.Strict) (h2 : cur = s.old) :
    applyRequest s cur r = cur := by
  rw [applyRequest_of_strict s cur r h1, h2]

/-- Witness for the amended C3 at a concrete Strict snapshot with the live
cell equal to it. -/
theorem C3_strict_noop_witness :
    applyRequest (ScopedGCSettings.new ⟨⟨Collect.NoCollect, Strength.Strict⟩⟩)
        ⟨⟨Collect.NoCollect, Strength.Strict⟩⟩ (Request.value Collect.Collect)
      = ⟨⟨Collect.NoCollect, Strength.Strict⟩⟩ :=
  C3_strict_noop_when_cell_matches_snapshot
    (ScopedGCSettings.new ⟨⟨Collect.NoCollect, Strength.Strict⟩⟩)
    (Request.value Collect.Collect) ⟨⟨Collect.NoCollect, Strength.Strict⟩⟩ rfl rfl

/-- Claim C4, counterexample: the claimed pair of equations is false,
because pick_stronger(Collect, NoCollect) is NoCollect, not Collect:
Collect is never stronger, so the new operand NoCollect wins. -/
theorem C4_pick_stronger_counterexample :
    ¬(strongest Collect.NoCollect Collect.Collect = Collect.NoCollect
      ∧ strongest Collect.Collect Collect.NoCollect = Collect.Collect) := by decide

/-- Claim C4, amended: the Collect merge satisfies
pick_stronger(NoCollect, Collect) = NoCollect and
pick_stronger(Collect, NoCollect) = NoCollect — NoCollect wins in both
operand orders, matching pick_stronger(Collect, x) = x. -/
theorem C4_pick_stronger_collect_laws :
    strongest Collect.NoCollect Collect.Collect = Collect.NoCollect
    ∧ strongest Collect.Collect Collect.NoCollect = Collect.NoCollect := by decide

/-- Claim C5: when a scope ends, the live cell is restored to the snapshot
captured at scope entry; hence for an outer scope S1 with current cell
state c and an inner scope S2 opened on c, after S2 issues any sequence of
requests and ends, the cell again equals c — none of S2 mutations remain
observable. (Scope-exit restoration is modelled from the spec, see
ScopedGCSettings.dropRestore.) -/
theorem C5_scope_exit_restores_snapshot (s : ScopedGCSettings)
    (c cur : GCSettings) (rs : List Request) :
    s.dropRestore cur = s.old
    ∧ (ScopedGCSettings.new c).dropRestore
        (applyRequests (ScopedGCSettings.new c) c rs) = c :=
  ⟨rfl, rfl⟩

/-- Claim C6: for every domination-capable T, the Strength merge yields
Strict when either operand is Strict, yields the other operand when either
operand is Lenient, and merges two AsStrongAs thresholds into AsStrongAs
of the merged thresholds. -/
theorem C6_strength_merge_laws (T : Type) [Stronger T] :
    (∀ x : Strength T, strongest x Strength.Strict = Strength.Strict
        ∧ strongest Strength.Strict x = Strength.Strict)
    ∧ (∀ x : Strength T, strongest Strength.Lenient x = x
        ∧ strongest x Strength.Lenient = x)
    ∧ (∀ t1 t2 : T, strongest (Strength.AsStrongAs t1) (Strength.AsStrongAs t2)
        = Strength.AsStrongAs (strongest t1 t2)) := by
  refine ⟨fun x => ⟨?_, rfl⟩, fun x => ⟨rfl, ?_⟩, fun t1 t2 => ?_⟩
  · cases x <;> rfl
  · cases x <;> rfl
  · cases h : Stronger.stronger_than t1 t2 <;>
      simp [strongest, strongerThan_asStrongAs, h]

/-- Witness for C6 at the concrete type Collect. -/
theorem C6_strength_merge_laws_witness :
    strongest (Strength.AsStrongAs Collect.Collect) (Strength.AsStrongAs Collect.NoCollect)
      = Strength.AsStrongAs (strongest Collect.Collect Collect.NoCollect) :=
  (C6_strength_merge_laws Collect).2.2 Collect.Collect Collect.NoCollect

/-- Claim C7: under a snapshot strength AsStrongAs t, a requested value
that does not dominate t is clamped to t (for both operations), and a
requested strength that the current strength dominates leaves the stored
strength unchanged at AsStrongAs t. -/
theorem C7_asStrongAs_clamps (s : ScopedGCSettings) (t va : Collect)
    (st : Strength Collect) (cur : GCSettings)
    (hstr : s.old.collect.strength = Strength.AsStrongAs t)
    (hval : Stronger.stronger_than va t = false)
    (hdom : Stronger.stronger_than (Strength.AsStrongAs t) st = true) :
    (s.with_collect va cur).collect.val = t
    ∧ (s.with_collect_strength va st cur).collect.val = t
    ∧ (s.with_collect_strength va st cur).collect.strength = Strength.AsStrongAs t := by
  refine ⟨?_, ?_, ?_⟩ <;>
    simp [ScopedGCSettings.with_collect, ScopedGCSettings.with_collect_strength,
      hstr, strongest, hval, hdom]

/-- Witness for C7: snapshot (NoCollect, AsStrongAs NoCollect), request
(Collect, Lenient): the stored value clamps to NoCollect and the stored
strength stays AsStrongAs NoCollect. -/
theorem C7_asStrongAs_clamps_witness :
    ((ScopedGCSettings.new ⟨⟨Collect.NoCollect, Strength.AsStrongAs Collect.NoCollect⟩⟩).with_collect
        Collect.Collect GCSettings.new).collect.val = Collect.NoCollect
    ∧ ((ScopedGCSettings.new ⟨⟨Collect.NoCollect, Strength.AsStrongAs Collect.NoCollect⟩⟩).with_collect_strength
        Collect.Collect Strength.Lenient GCSettings.new).collect.val = Collect.NoCollect
    ∧ ((ScopedGCSettings.new ⟨⟨Collect.NoCollect, Strength.AsStrongAs Collect.NoCollect⟩⟩).with_collect_strength
        Collect.Collect Strength.Lenient GCSettings.new).collect.strength
      = Strength.AsStrongAs Collect.NoCollect :=
  C7_asStrongAs_clamps
    (ScopedGCSettings.new ⟨⟨Collect.NoCollect, Strength.AsStrongAs Collect.NoCollect⟩⟩)
    Collect.NoCollect Collect.Collect Strength.Lenient GCSettings.new rfl rfl rfl

/-- Claim C8: a freshly constructed GCSettings holds exactly the setting
with value Collect and strength Lenient. -/
theorem C8_new_default_setting :
    GCSettings.new = ⟨⟨Collect.Collect, Strength.Lenient⟩⟩ := rfl

/-- Claim C9: the cell content written by one request through a handle
depends only on the handle snapshot and the request (not on the live cell
content), and after any nonempty sequence of requests through one handle
the cell equals what the last request alone would have produced. -/
theorem C9_last_request_wins (s : ScopedGCSettings) (rs : List Request)
    (r : Request) (cur cur' : GCSettings) :
    applyRequest s cur r = applyRequest s cur' r
    ∧ applyRequests s cur (rs ++ [r]) = applyRequest s cur r := by
  refine ⟨applyRequest_ignores_cur s cur cur' r, ?_⟩
  show (rs ++ [r]).foldl (applyRequest s) cur = applyRequest s cur r
  rw [List.foldl_append]
  exact applyRequest_ignores_cur s (rs.foldl (applyRequest s) cur) cur r

/-- Claim C10: when the scope snapshot strength is Strict, both mutation
operations still perform a store: they set the live cell to the snapshot
setting, so a live cell that diverged from the snapshot is reset to it. -/
theorem C10_strict_stores_snapshot (s : ScopedGCSettings) (va : Collect)
    (st : Strength Collect) (cur : GCSettings)
    (h : s.old.collect.strength = Strength.Strict) :
    s.with_collect va cur = ⟨s.old.collect⟩
    ∧ s.with_collect_strength va st cur = ⟨s.old.collect⟩ :=
  ⟨with_collect_of_strict s va cur h, with_collect_strength_of_strict s va st cur h⟩

/-- Witness for C10: a scope with Strict snapshot (NoCollect, Strict)
mutating a diverged live cell (the default cell) resets it to the
snapshot. -/
theorem C10_strict_stores_snapshot_witness :
    (ScopedGCSettings.new ⟨⟨Collect.NoCollect, Strength.Strict⟩⟩).with_collect
        Collect.Collect GCSettings.new = ⟨⟨Collect.NoCollect, Strength.Strict⟩⟩
    ∧ (ScopedGCSettings.new ⟨⟨Collect.NoCollect, Strength.Strict⟩⟩).with_collect_strength
        Collect.Collect Strength.Lenient GCSettings.new
      = ⟨⟨Collect.NoCollect, Strength.Strict⟩⟩ :=
  C10_strict_stores_snapshot
    (ScopedGCSettings.new ⟨⟨Collect.NoCollect, Strength.Strict⟩⟩)
    Collect.Collect Strength.Lenient GCSettings.new rfl

end Crossbeam
